import Mathlib

/-
Verification of the grafana-websocket-plugin backend (pkg/plugin/plugin.go,
pkg/models/settings.go).  The Go code is shallowly embedded: Go maps become
association lists whose insertion overwrites the previous binding, the
standard-library path functions are given their documented lexical semantics,
and the concurrent subscription lifecycle (read goroutine, relay goroutine,
supervising RunStream select) becomes a labelled small-step transition system.
-/

namespace WsPlugin

/-! ## Association-list model of Go string-keyed maps

A Go map write overwrites any previous binding of the key; lookup of a missing
key yields the zero value, modelled by Option.  Go map iteration order is
unspecified; lists fix one order, which is only observable when two writes
target the same key in one loop. -/

def insertA {β : Type} (m : List (String × β)) (k : String) (v : β) : List (String × β) :=
  m.filter (fun kv => kv.1 != k) ++ [(k, v)]

def lookupA {β : Type} : List (String × β) → String → Option β
  | [], _ => none
  | kv :: rest, key => if key = kv.1 then some kv.2 else lookupA rest key

theorem lookupA_append {β : Type} (l1 l2 : List (String × β)) (k : String) :
    lookupA (l1 ++ l2) k =
      match lookupA l1 k with
      | some v => some v
      | none => lookupA l2 k := by
  induction l1 with
  | nil => simp [lookupA]
  | cons kv rest ih =>
    by_cases h : k = kv.1 <;> simp [lookupA, h, ih]

theorem lookupA_filter_self {β : Type} (m : List (String × β)) (k : String) :
    lookupA (m.filter (fun kv => kv.1 != k)) k = none := by
  induction m with
  | nil => simp [lookupA]
  | cons kv rest ih =>
    by_cases h : kv.1 = k
    · have hb : (kv.1 != k) = false := by simp [h]
      simp [List.filter_cons, hb, ih]
    · have hb : (kv.1 != k) = true := by simp [h]
      have hne : k ≠ kv.1 := fun hk => h hk.symm
      simp [List.filter_cons, hb, lookupA, hne, ih]

theorem lookupA_filter_other {β : Type} (m : List (String × β)) (k key : String)
    (hne : key ≠ k) :
    lookupA (m.filter (fun kv => kv.1 != k)) key = lookupA m key := by
  induction m with
  | nil => simp
  | cons kv rest ih =>
    by_cases h : kv.1 = k
    · have hb : (kv.1 != k) = false := by simp [h]
      have hkey : key ≠ kv.1 := fun hk => hne (hk.trans h)
      simp [List.filter_cons, hb, lookupA, hkey, ih]
    · have hb : (kv.1 != k) = true := by simp [h]
      by_cases hk : key = kv.1 <;> simp [List.filter_cons, hb, lookupA, hk, ih]

theorem lookupA_insertA_self {β : Type} (m : List (String × β)) (k : String) (v : β) :
    lookupA (insertA m k v) k = some v := by
  simp [insertA, lookupA_append, lookupA_filter_self, lookupA]

theorem lookupA_insertA_ne {β : Type} (m : List (String × β)) (k key : String) (v : β)
    (hne : key ≠ k) :
    lookupA (insertA m k v) key = lookupA m key := by
  simp only [insertA, lookupA_append, lookupA_filter_other m k key hne]
  cases lookupA m key with
  | none => simp [lookupA, hne]
  | some w => simp

theorem lookupA_eq_none {β : Type} (m : List (String × β)) (k : String)
    (h : k ∉ m.map Prod.fst) :
    lookupA m k = none := by
  induction m with
  | nil => simp [lookupA]
  | cons kv rest ih =>
    simp only [List.map_cons, List.mem_cons] at h
    push_neg at h
    simp [lookupA, h.1, ih h.2]

/-! ## Frames

A data.Frame as produced by this plugin: a name, an ordered list of fields
(each a name plus string values), and optional channel metadata. -/

structure FrameField where
  name : String
  values : List String
deriving DecidableEq, Repr

structure Frame where
  name : String
  fields : List FrameField
  meta : Option String
deriving DecidableEq, Repr

/-- sendErrorFrame in plugin.go: a frame named error with one field error
holding the message. -/
def errorFrame (msg : String) : Frame :=
  { name := "error", fields := [{ name := "error", values := [msg] }], meta := none }

/-- The response frame built per message in proxyMessage: one field data
holding the raw message text. -/
def responseFrame (m : String) : Frame :=
  { name := "response", fields := [{ name := "data", values := [m] }], meta := none }

/-! ## Go path.Clean and path.Join (lexical path normalization)

Byte-for-byte faithful to the Go standard library for UTF-8 input, since the
separator and dot are ASCII.  Clean collapses repeated separators, removes
single-dot segments, resolves double-dot segments, drops trailing separators,
and maps the empty path to a single dot. -/

def splitSlash : List Char → List (List Char)
  | [] => [[]]
  | c :: rest =>
    if c = '/' then [] :: splitSlash rest
    else
      match splitSlash rest with
      | [] => [[c]]
      | seg :: segs => (c :: seg) :: segs

/-- Process segments left to right keeping the output stack reversed
(most recent segment first), mirroring the writer index of Go Clean. -/
def cleanSegs (rooted : Bool) : List (List Char) → List (List Char) → List (List Char)
  | acc, [] => acc
  | acc, seg :: rest =>
    if seg = [] ∨ seg = ['.'] then cleanSegs rooted acc rest
    else if seg = ['.', '.'] then
      match acc with
      | [] => if rooted then cleanSegs rooted [] rest else cleanSegs rooted [['.', '.']] rest
      | a :: as =>
        if a = ['.', '.'] then cleanSegs rooted (seg :: a :: as) rest
        else cleanSegs rooted as rest
    else cleanSegs rooted (seg :: acc) rest

def joinSlash : List (List Char) → List Char
  | [] => []
  | [s] => s
  | s :: rest => s ++ '/' :: joinSlash rest

def goClean (p : String) : String :=
  match p.data with
  | [] => "."
  | c :: cs =>
    let rooted := c = '/'
    let segs := (cleanSegs rooted [] (splitSlash (c :: cs))).reverse
    if segs = [] then (if rooted then "/" else ".")
    else String.mk ((if rooted then ['/'] else []) ++ joinSlash segs)

/-- Go path.Join restricted to two elements, as used in this plugin:
skip empty leading elements, join with a separator, then Clean. -/
def goJoin2 (a b : String) : String :=
  if a = "" && b = "" then ""
  else if a = "" then goClean b
  else goClean (a ++ "/" ++ b)

/-- The channel path computed in query: Join of the Cleaned query path with
the query ref id. -/
def queryChannelPath (wsPath refId : String) : String :=
  goJoin2 (goClean wsPath) refId

/-! ## Data-source instance state, registry, query dispatch, publish -/

structure ChannelConfig where
  path : String
  queryParams : List (String × String)
deriving DecidableEq, Repr

/-- The instance state of WebSocketDataSource (the RWMutex is elided: the
model serialises registry operations, matching the mutual exclusion the lock
provides). -/
structure WebSocketDataSource where
  customHeaders : List (String × String)
  customQueryParameters : List (String × String)
  channelConfigs : List (String × ChannelConfig)
deriving DecidableEq, Repr

/-- One range loop of mergeQueryParams: copy every binding into the
accumulator map, overwriting on key collision. -/
def foldIns (m : List (String × String)) (l : List (String × String)) :
    List (String × String) :=
  l.foldl (fun acc kv => insertA acc kv.1 kv.2) m

/-- mergeQueryParams in plugin.go: start from a fresh empty map, copy the
instance defaults, then copy the per-query parameters over them. -/
def mergeQueryParams (customQueryParameters queryParams : List (String × String)) :
    List (String × String) :=
  foldIns (foldIns [] customQueryParameters) queryParams

/-- setChannelConfig: exclusive-lock upsert of the registry entry. -/
def setChannelConfig (reg : List (String × ChannelConfig))
    (channelPath basePath : String) (params : List (String × String)) :
    List (String × ChannelConfig) :=
  insertA reg channelPath { path := basePath, queryParams := params }

/-- getChannelConfig: shared-lock read of the registry entry. -/
def getChannelConfig (reg : List (String × ChannelConfig)) (channelPath : String) :
    Option ChannelConfig :=
  lookupA reg channelPath

/-- The parsed query payload (json tags path and queryParams). -/
structure QueryModel where
  wsPath : String
  queryParams : List (String × String)
deriving DecidableEq, Repr

/-- The per-query data response.  The model covers the successful-unmarshal
path; on a malformed payload the Go query returns its unmarshal error before
touching any instance state. -/
structure DataResponse where
  frames : List Frame
deriving DecidableEq, Repr

/-- query in plugin.go: build the channel (scope ds, namespace = instance
uid, path = Join(Clean(wsPath), refId)), return a response frame carrying
only the channel metadata, and register the merged parameters under the
channel path. -/
def query (wsds : WebSocketDataSource) (uid refId : String) (qm : QueryModel) :
    WebSocketDataSource × DataResponse :=
  let channelPath := queryChannelPath qm.wsPath refId
  ({ wsds with
      channelConfigs := setChannelConfig wsds.channelConfigs channelPath qm.wsPath
        (mergeQueryParams wsds.customQueryParameters qm.queryParams) },
   { frames := [{ name := "response", fields := [],
                  meta := some ("ds/" ++ uid ++ "/" ++ channelPath) }] })

inductive PublishStreamStatus where
  | ok
  | notFound
  | permissionDenied
deriving DecidableEq, Repr

structure PublishStreamRequest where
  path : String
  data : String
deriving DecidableEq, Repr

structure PublishStreamResponse where
  status : PublishStreamStatus
deriving DecidableEq, Repr

/-- PublishStream in plugin.go: the body builds a permission-denied response
and nothing else; the instance state is returned to make the absence of side
effects explicit. -/
def publishStream (wsds : WebSocketDataSource) (_req : PublishStreamRequest) :
    PublishStreamResponse × WebSocketDataSource :=
  ({ status := .permissionDenied }, wsds)

/-! ## RunStream up to the point where streaming begins

The registry lookup and proxy construction (NewWsDataProxy: URL encoding plus
websocket dial) are the sequential prefix of RunStream; the dial outcome is a
parameter because it depends on the network.  A missing registry entry
returns before NewWsDataProxy is ever called, so no proxy is constructed and
no dial occurs. -/

structure RunStreamStart where
  preFrames : List Frame
  dialed : Bool
  result : Option String
deriving DecidableEq, Repr

def runStreamStart (reg : List (String × ChannelConfig)) (reqPath : String)
    (dial : ChannelConfig → Option String) : RunStreamStart :=
  match getChannelConfig reg reqPath with
  | none =>
    let msg := "no channel config found for " ++ reqPath
    { preFrames := [errorFrame msg], dialed := false, result := some msg }
  | some cfg =>
    match dial cfg with
    | some e =>
      { preFrames := [errorFrame ("Starting WebSocket: " ++ e)],
        dialed := true, result := some e }
    | none => { preFrames := [], dialed := true, result := none }

/-! ## Settings loading (pkg/models/settings.go)

The raw JSONData map (after a successful json.Unmarshal into map of string to
any) is modelled as an association list of JSON values; the decrypted secure
data is a string map.  A failed unmarshal aborts loading before any of the
logic below runs and is not modelled. -/

inductive JVal where
  | jstr (s : String)
  | jnull
  | jobj (fields : List (String × JVal))
  | jother (printed : String)

mutual

/-- toString in settings.go: nil gives the empty string, a string gives
itself, anything else its fmt.Sprint rendering.  A JSON object unmarshals to
a Go map, printed by fmt as map bracket contents; fmt orders the keys sorted,
a rendering detail no behaviour below depends on, so the model prints them in
list order.  Other values (numbers, booleans, arrays) carry their rendering. -/
def toStringJ : JVal → String
  | .jstr s => s
  | .jnull => ""
  | .jobj fs => "map[" ++ sprintFields fs ++ "]"
  | .jother printed => printed

def sprintFields : List (String × JVal) → String
  | [] => ""
  | [(k, v)] => k ++ ":" ++ toStringJ v
  | (k, v) :: kv :: rest => k ++ ":" ++ toStringJ v ++ " " ++ sprintFields (kv :: rest)

end

/-- toString applied to a Go map index expression: a missing key yields the
nil interface, hence the empty string. -/
def toStringOpt : Option JVal → String
  | none => ""
  | some v => toStringJ v

/-- hasPrefix in settings.go (length guard plus slice comparison). -/
def goStartsWith (s pre : String) : Bool :=
  pre.data.isPrefixOf s.data

/-- indexOf in settings.go: index of the first occurrence of sub in s, as an
Option instead of the minus-one sentinel. -/
def idxOf : List Char → List Char → Option Nat
  | s, sub =>
    if sub.isPrefixOf s then some 0
    else
      match s with
      | [] => none
      | _ :: t => (idxOf t sub).map (· + 1)

/-- splitOnName: split a legacy key at the first occurrence of the marker
Name; a key without the marker stays whole. -/
def splitOnName (setting : String) : List String :=
  match idxOf setting.data "Name".data with
  | some i => [String.mk (setting.data.take i), String.mk (setting.data.drop (i + 4))]
  | none => [setting]

def prefixFromName (setting : String) : String :=
  match splitOnName setting with
  | [a, _] => a
  | _ => ""

def suffixFromName (setting : String) : String :=
  match splitOnName setting with
  | [_, b] => b
  | _ => ""

structure SecretPluginSettings where
  apiKey : String
  secure : List (String × String)

/-- valueFor: the secret stored under prefix plus Value plus suffix; a
missing entry gives the zero value, the empty string. -/
def SecretPluginSettings.valueFor (s : SecretPluginSettings) (pre suf : String) : String :=
  (lookupA s.secure (pre ++ "Value" ++ suf)).getD ""

def SecretPluginSettings.headerValue (s : SecretPluginSettings) (key : String) : String :=
  s.valueFor (prefixFromName key) (suffixFromName key)

def SecretPluginSettings.queryParamValue (s : SecretPluginSettings) (key : String) : String :=
  s.valueFor (prefixFromName key) (suffixFromName key)

structure PluginSettings where
  path : String
  headers : List (String × String)
  queryParameters : List (String × String)
  secrets : SecretPluginSettings

def loadSecretPluginSettings (source : List (String × String)) : SecretPluginSettings :=
  { apiKey := (lookupA source "apiKey").getD "", secure := source }

/-- The structured phase of LoadPluginSettings: if the field holds an object,
copy every entry whose rendered value is non-empty. -/
def structuredPhase (field : Option JVal) : List (String × String) :=
  match field with
  | some (.jobj fs) =>
    fs.foldl (fun m kv => if toStringJ kv.2 = "" then m else insertA m kv.1 (toStringJ kv.2)) []
  | _ => []

/-- The legacy phase of LoadPluginSettings: one step of the range loop over
the raw map.  A key matching neither legacy pattern is skipped, as is an
entry whose rendered value (the logical name) is empty; otherwise the secret
value is written into the matching map, overwriting any present binding. -/
def legacyStep (secrets : SecretPluginSettings) (st : PluginSettings)
    (kv : String × JVal) : PluginSettings :=
  if ¬ goStartsWith kv.1 "headerName" ∧ ¬ goStartsWith kv.1 "queryParamName" then st
  else
    let name := toStringJ kv.2
    if name = "" then st
    else if goStartsWith kv.1 "headerName" then
      { st with headers := insertA st.headers name (secrets.headerValue kv.1) }
    else
      { st with queryParameters := insertA st.queryParameters name (secrets.queryParamValue kv.1) }

/-- LoadPluginSettings in settings.go, after a successful unmarshal of
JSONData: read path, fill headers and queryParameters from the structured
fields, then run the legacy headerName and queryParamName loop over the whole
raw map. -/
def loadPluginSettings (raw : List (String × JVal)) (secure : List (String × String)) :
    PluginSettings :=
  let secrets := loadSecretPluginSettings secure
  let s0 : PluginSettings :=
    { path := toStringOpt (lookupA raw "path"),
      headers := structuredPhase (lookupA raw "headers"),
      queryParameters := structuredPhase (lookupA raw "queryParameters"),
      secrets := secrets }
  raw.foldl (legacyStep secrets) s0

/-! ## The relay loop proxyMessage

The loop keeps one frame object; per message it attempts a structured parse
whose outcome is discarded (json.Unmarshal into the scratch map m, error
ignored, m never read), appends the single data field holding the raw text,
hands the frame to SendFrame, and resets the field list.  A SendFrame error
is logged and the loop continues, so the emitted sequence is the sequence of
SendFrame calls.  The loop ends when the message channel is closed. -/

def proxyMessageLoop (parse : String → Bool) (fields : List FrameField) :
    List String → List Frame
  | [] => []
  | message :: rest =>
    let _parsed := parse message
    let fields2 := fields ++ [{ name := "data", values := [message] }]
    { name := "response", fields := fields2, meta := none }
      :: proxyMessageLoop parse [] rest

def proxyMessage (parse : String → Bool) (msgs : List String) : List Frame :=
  proxyMessageLoop parse [] msgs

/-! ## The running subscription as a labelled transition system

One running subscription is three concurrent activities over shared channels:
the read goroutine (readMessage), the relay goroutine (proxyMessage) and the
supervising select in RunStream.  Channels: msgRead (unbuffered rendezvous),
readingErrors (unbuffered rendezvous), done (buffer one, modelled as a flag).
Internal scheduling is the tau label; message arrival, a transport receive
failure and context cancellation are environment labels. -/

inductive ReaderPC where
  /-- top of the for loop, about to poll the done channel (select default). -/
  | atSelect
  /-- inside the blocking wsConn.ReadMessage call. -/
  | blockedOnReceive
  /-- got a message, sending it on msgRead (blocks until the relay takes it). -/
  | handingOff (m : String)
  /-- ReadMessage failed, inside the fixed three second time.Sleep. -/
  | sleeping (e : String)
  /-- sending the wrapped failure on readingErrors (blocks until received). -/
  | reportingError (e : String)
  /-- returned; the defer closed the connection and the msgRead channel. -/
  | terminated
deriving DecidableEq, Repr

inductive RelayPC where
  /-- blocked receiving on msgRead. -/
  | awaitingMsg
  /-- holding a received message, about to build and send the frame. -/
  | emitting (m : String)
  /-- msgRead was closed, the loop returned. -/
  | terminated
deriving DecidableEq, Repr

inductive SupPC where
  /-- blocked in the select on ctx.Done and readingErrors. -/
  | awaiting
  /-- took the ctx.Done branch: sent true on done and returned nil. -/
  | cancelled
  /-- took the readingErrors branch.  On this path the local err from
  NewWsDataProxy is necessarily nil (a non-nil err returned earlier), and the
  branch immediately evaluates err.Error() for its log and frame arguments: a
  method call on a nil interface, a runtime panic.  Neither the error frame
  send nor the return of rError is reached. -/
  | panicked
deriving DecidableEq, Repr

structure SysState where
  reader : ReaderPC
  relay : RelayPC
  sup : SupPC
  done : Bool
  connOpen : Bool
  frames : List Frame
deriving DecidableEq, Repr

inductive Act where
  | tau
  | arrives (m : String)
  | fails (e : String)
  | cancel
deriving DecidableEq, Repr

inductive LStep : SysState → Act → SysState → Prop where
  /-- select sees a value on done: consume it, return; the defer closes the
  connection and msgRead. -/
  | readerSeesDone (rl : RelayPC) (sp : SupPC) (c : Bool) (fs : List Frame) :
      LStep ⟨.atSelect, rl, sp, true, c, fs⟩ .tau ⟨.terminated, rl, sp, false, false, fs⟩
  /-- select default branch: done is empty, enter the blocking ReadMessage. -/
  | readerEntersReceive (rl : RelayPC) (sp : SupPC) (c : Bool) (fs : List Frame) :
      LStep ⟨.atSelect, rl, sp, false, c, fs⟩ .tau ⟨.blockedOnReceive, rl, sp, false, c, fs⟩
  /-- a blocked ReadMessage returns an error once the connection is closed. -/
  | readerConnClosedFails (e : String) (rl : RelayPC) (sp : SupPC) (d : Bool) (fs : List Frame) :
      LStep ⟨.blockedOnReceive, rl, sp, d, false, fs⟩ .tau ⟨.sleeping e, rl, sp, d, false, fs⟩
  /-- the three second sleep elapses; the wrapped error is offered on
  readingErrors. -/
  | readerWakes (e : String) (rl : RelayPC) (sp : SupPC) (d c : Bool) (fs : List Frame) :
      LStep ⟨.sleeping e, rl, sp, d, c, fs⟩ .tau ⟨.reportingError e, rl, sp, d, c, fs⟩
  /-- rendezvous on msgRead: the relay takes the message, the reader loops. -/
  | handoffDelivered (m : String) (sp : SupPC) (d c : Bool) (fs : List Frame) :
      LStep ⟨.handingOff m, .awaitingMsg, sp, d, c, fs⟩ .tau ⟨.atSelect, .emitting m, sp, d, c, fs⟩
  /-- the relay builds the response frame and hands it to SendFrame. -/
  | relayEmits (m : String) (r : ReaderPC) (sp : SupPC) (d c : Bool) (fs : List Frame) :
      LStep ⟨r, .emitting m, sp, d, c, fs⟩ .tau ⟨r, .awaitingMsg, sp, d, c, fs ++ [responseFrame m]⟩
  /-- the reader has terminated, so msgRead is closed: the relay returns. -/
  | relaySeesClosed (sp : SupPC) (d c : Bool) (fs : List Frame) :
      LStep ⟨.terminated, .awaitingMsg, sp, d, c, fs⟩ .tau ⟨.terminated, .terminated, sp, d, c, fs⟩
  /-- rendezvous on readingErrors: the supervisor receives rError and then
  panics on the nil construction error (see SupPC.panicked); the reader
  returns and its defer closes the connection. -/
  | supReceivesError (e : String) (rl : RelayPC) (d c : Bool) (fs : List Frame) :
      LStep ⟨.reportingError e, rl, .awaiting, d, c, fs⟩ .tau ⟨.terminated, rl, .panicked, d, false, fs⟩
  /-- environment: the upstream delivers a message to a blocked ReadMessage
  on the open connection. -/
  | msgArrives (m : String) (rl : RelayPC) (sp : SupPC) (d : Bool) (fs : List Frame) :
      LStep ⟨.blockedOnReceive, rl, sp, d, true, fs⟩ (.arrives m) ⟨.handingOff m, rl, sp, d, true, fs⟩
  /-- environment: the receive fails mid-stream (upstream closed, transport
  error); the reader enters the fixed sleep. -/
  | readFails (e : String) (rl : RelayPC) (sp : SupPC) (d : Bool) (fs : List Frame) :
      LStep ⟨.blockedOnReceive, rl, sp, d, true, fs⟩ (.fails e) ⟨.sleeping e, rl, sp, d, true, fs⟩
  /-- environment: the context is cancelled.  The supervisor sends true on
  the buffered done channel and returns nil; the code closes nothing here. -/
  | ctxCancelled (r : ReaderPC) (rl : RelayPC) (c : Bool) (fs : List Frame) :
      LStep ⟨r, rl, .awaiting, false, c, fs⟩ .cancel ⟨r, rl, .cancelled, true, c, fs⟩

/-- Internal scheduling only: no inbound message, no transport failure, no
cancellation. -/
def TauStep (a b : SysState) : Prop := LStep a Act.tau b

/-- A running subscription that is idle: the reader blocked in ReadMessage,
the relay blocked on msgRead, the supervisor in its select, nothing pending. -/
def idleRunningState (fs : List Frame) : SysState :=
  ⟨.blockedOnReceive, .awaitingMsg, .awaiting, false, true, fs⟩

/-- The state right after a mid-stream receive failure: the reader is in the
fixed sleep before reporting, everything else idle. -/
def readFailedState (e : String) (fs : List Frame) : SysState :=
  ⟨.sleeping e, .awaitingMsg, .awaiting, false, true, fs⟩

/-! ## Theorems -/

theorem lookupA_foldIns (l m : List (String × String)) (k : String)
    (h : (l.map Prod.fst).Nodup) :
    lookupA (foldIns m l) k =
      match lookupA l k with
      | some v => some v
      | none => lookupA m k := by
  induction l generalizing m with
  | nil => simp [foldIns, lookupA]
  | cons kv rest ih =>
    have hnd : kv.1 ∉ rest.map Prod.fst ∧ (rest.map Prod.fst).Nodup :=
      List.nodup_cons.mp (by simpa using h)
    have hfold : foldIns m (kv :: rest) = foldIns (insertA m kv.1 kv.2) rest := rfl
    rw [hfold, ih (insertA m kv.1 kv.2) hnd.2]
    by_cases hk : k = kv.1
    · simp [lookupA, hk, lookupA_eq_none rest kv.1 hnd.1, lookupA_insertA_self]
    · simp [lookupA, hk, lookupA_insertA_ne m kv.1 k kv.2 hk]

/-- Claim C7: merging the instance-default parameter map with the per-query
parameter map yields a map containing every key of either input, the
per-query value winning on every collision. -/
theorem mergeQueryParams_query_wins (cqp qp : List (String × String))
    (h1 : (cqp.map Prod.fst).Nodup) (h2 : (qp.map Prod.fst).Nodup) (k : String) :
    lookupA (mergeQueryParams cqp qp) k =
      match lookupA qp k with
      | some v => some v
      | none => lookupA cqp k := by
  unfold mergeQueryParams
  rw [lookupA_foldIns qp _ k h2, lookupA_foldIns cqp _ k h1]
  cases lookupA qp k <;> cases lookupA cqp k <;> simp [lookupA]

/-- Witness for C7 on the example of the spec: defaults a to 1 and b to 2
merged with query b to 3 and c to 4 give a to 1, b to 3, c to 4. -/
theorem mergeQueryParams_query_wins_w :
    (([("a", "1"), ("b", "2")] : List (String × String)).map Prod.fst).Nodup
    ∧ (([("b", "3"), ("c", "4")] : List (String × String)).map Prod.fst).Nodup
    ∧ lookupA (mergeQueryParams [("a", "1"), ("b", "2")] [("b", "3"), ("c", "4")]) "a" = some "1"
    ∧ lookupA (mergeQueryParams [("a", "1"), ("b", "2")] [("b", "3"), ("c", "4")]) "b" = some "3"
    ∧ lookupA (mergeQueryParams [("a", "1"), ("b", "2")] [("b", "3"), ("c", "4")]) "c" = some "4" :=
  ⟨by decide, by decide,
   (mergeQueryParams_query_wins _ _ (by decide) (by decide) "a").trans (by decide),
   (mergeQueryParams_query_wins _ _ (by decide) (by decide) "b").trans (by decide),
   (mergeQueryParams_query_wins _ _ (by decide) (by decide) "c").trans (by decide)⟩

/-- Claim C6: a query registers its config under the channel path obtained by
joining the Cleaned query path with the ref id; normalization collapses
repeated and trailing separators, and an empty or current-directory path
normalizes to just the ref id. -/
theorem channelPath_normalization :
    (∀ (w : WebSocketDataSource) (uid rid : String) (qm : QueryModel),
        lookupA (query w uid rid qm).1.channelConfigs (queryChannelPath qm.wsPath rid) =
          some { path := qm.wsPath,
                 queryParams := mergeQueryParams w.customQueryParameters qm.queryParams })
    ∧ queryChannelPath "foo/" "A" = "foo/A"
    ∧ queryChannelPath "" "B" = "B"
    ∧ queryChannelPath "." "B" = "B"
    ∧ queryChannelPath "a//b//" "C" = "a/b/C" := by
  refine ⟨fun w uid rid qm => ?_, by decide, by decide, by decide, by decide⟩
  simp only [query, setChannelConfig]
  exact lookupA_insertA_self _ _ _

/-- Claim C8: registering the same channel identifier twice is an upsert; a
lookup afterwards returns exactly the most recently registered config, with
no merge of old and new. -/
theorem setChannelConfig_last_write_wins
    (reg : List (String × ChannelConfig)) (p b1 b2 : String)
    (q1 q2 : List (String × String)) :
    getChannelConfig (setChannelConfig (setChannelConfig reg p b1 q1) p b2 q2) p =
      some { path := b2, queryParams := q2 } := by
  unfold getChannelConfig setChannelConfig
  exact lookupA_insertA_self _ _ _

/-- Claim C9: every publish request is answered with permission denied and
the instance state is untouched, keeping the data flow one-directional. -/
theorem publishStream_always_denied (wsds : WebSocketDataSource)
    (req : PublishStreamRequest) :
    (publishStream wsds req).1.status = PublishStreamStatus.permissionDenied
    ∧ (publishStream wsds req).2 = wsds :=
  ⟨rfl, rfl⟩

/-- Claim C10: handling a query mutates nothing but the registry entry it
writes: the custom headers, the global default parameters (mergeQueryParams
builds a fresh map) and every registry entry under a different channel path
are unchanged. -/
theorem query_frame_effects (w : WebSocketDataSource) (uid rid : String) (qm : QueryModel) :
    (query w uid rid qm).1.customHeaders = w.customHeaders
    ∧ (query w uid rid qm).1.customQueryParameters = w.customQueryParameters
    ∧ ∀ cp, cp ≠ queryChannelPath qm.wsPath rid →
        lookupA (query w uid rid qm).1.channelConfigs cp = lookupA w.channelConfigs cp := by
  refine ⟨rfl, rfl, fun cp h => ?_⟩
  simp only [query, setChannelConfig]
  exact lookupA_insertA_ne _ _ _ _ h

/-- Witness for C10 at a concrete instance and query. -/
theorem query_frame_effects_w :
    (query ⟨[("H", "v")], [("a", "1")], [("x", { path := "p", queryParams := [] })]⟩
        "u" "A" ⟨"foo", []⟩).1.customQueryParameters = [("a", "1")]
    ∧ "x" ≠ queryChannelPath "foo" "A"
    ∧ lookupA (query ⟨[("H", "v")], [("a", "1")], [("x", { path := "p", queryParams := [] })]⟩
        "u" "A" ⟨"foo", []⟩).1.channelConfigs "x"
      = lookupA [("x", ChannelConfig.mk "p" [])] "x" := by
  have h := query_frame_effects ⟨[("H", "v")], [("a", "1")], [("x", ⟨"p", []⟩)]⟩ "u" "A" ⟨"foo", []⟩
  exact ⟨h.2.1, by decide, h.2.2 "x" (by decide)⟩

/-- Claim C4: a subscribe request for a channel path with no registry entry
makes the stream run fail with the missing-channel-config error, emit exactly
one error frame, and never construct a proxy or dial. -/
theorem runStream_missing_config (reg : List (String × ChannelConfig)) (p : String)
    (dial : ChannelConfig → Option String) (h : getChannelConfig reg p = none) :
    runStreamStart reg p dial =
      { preFrames := [errorFrame ("no channel config found for " ++ p)],
        dialed := false,
        result := some ("no channel config found for " ++ p) } := by
  simp [runStreamStart, h]

/-- Witness for C4 on the empty registry. -/
theorem runStream_missing_config_w :
    getChannelConfig [] "stream/A" = none
    ∧ runStreamStart [] "stream/A" (fun _ => none) =
      { preFrames := [errorFrame ("no channel config found for " ++ "stream/A")],
        dialed := false,
        result := some ("no channel config found for " ++ "stream/A") } :=
  ⟨rfl, runStream_missing_config [] "stream/A" (fun _ => none) rfl⟩

/-- Claim C5: three messages received in order produce exactly three response
frames in the same order, each with the single field data holding the raw
text, whatever the outcome of the best-effort structured parse. -/
theorem proxyMessage_relays_in_order (parse : String → Bool) (m1 m2 m3 : String) :
    proxyMessage parse [m1, m2, m3] = [responseFrame m1, responseFrame m2, responseFrame m3]
    ∧ ∀ m, responseFrame m =
        { name := "response", fields := [{ name := "data", values := [m] }], meta := none } :=
  ⟨rfl, fun _ => rfl⟩

/-- Claim C2, divergence witness: with the structured headers field binding
X-Key to structval and the legacy pair headerName1 to X-Key with secret
headerValue1 legacyval, the loaded settings hold the legacy value, not the
structured one: the legacy loop runs after the structured phase and
overwrites, although the comments in settings.go describe the legacy pattern
as a fallback to be applied only when the structured field is absent. -/
theorem loadPluginSettings_legacy_overwrites_structured :
    lookupA (loadPluginSettings
        [("headers", .jobj [("X-Key", .jstr "structval")]), ("headerName1", .jstr "X-Key")]
        [("headerValue1", "legacyval")]).headers "X-Key" = some "legacyval"
    ∧ lookupA (loadPluginSettings
        [("headers", .jobj [("X-Key", .jstr "structval")]), ("headerName1", .jstr "X-Key")]
        [("headerValue1", "legacyval")]).headers "X-Key" ≠ some "structval" := by
  constructor <;> decide

/-- Claim C1, divergence witness: from the state right after a mid-stream
receive failure (reader in the fixed sleep, relay and supervisor idle), every
internally reachable state still carries exactly the frames emitted before
the failure, and the supervisor is either still waiting or has panicked on
the nil construction error: no error frame for the read error is ever
emitted and the read error is never returned. -/
theorem readError_no_error_frame (e : String) (fs : List Frame) (t : SysState)
    (h : Relation.ReflTransGen TauStep (readFailedState e fs) t) :
    t.frames = fs ∧ (t.sup = SupPC.awaiting ∨ t.sup = SupPC.panicked) := by
  have h0 : readFailedState e fs
      = (⟨.sleeping e, .awaitingMsg, .awaiting, false, true, fs⟩ : SysState) := rfl
  rw [h0] at h
  have inv : ∀ u,
      Relation.ReflTransGen TauStep
        (⟨.sleeping e, .awaitingMsg, .awaiting, false, true, fs⟩ : SysState) u →
      u = (⟨.sleeping e, .awaitingMsg, .awaiting, false, true, fs⟩ : SysState)
      ∨ u = (⟨.reportingError e, .awaitingMsg, .awaiting, false, true, fs⟩ : SysState)
      ∨ u = (⟨.terminated, .awaitingMsg, .panicked, false, false, fs⟩ : SysState)
      ∨ u = (⟨.terminated, .terminated, .panicked, false, false, fs⟩ : SysState) := by
    intro u hu
    induction hu with
    | refl => exact Or.inl rfl
    | tail _ hbc ih =>
      rcases ih with h1 | h1 | h1 | h1 <;> rw [h1] at hbc <;> cases hbc <;>
        first
        | exact Or.inr (Or.inl rfl)
        | exact Or.inr (Or.inr (Or.inl rfl))
        | exact Or.inr (Or.inr (Or.inr rfl))
  rcases inv t h with h1 | h1 | h1 | h1 <;> rw [h1] <;>
    first
    | exact ⟨rfl, Or.inl rfl⟩
    | exact ⟨rfl, Or.inr rfl⟩

/-- Witness for C1: the failure state itself is reachable in zero steps and
already satisfies the conclusion. -/
theorem readError_no_error_frame_w :
    (readFailedState "EOF" []).frames = []
    ∧ ((readFailedState "EOF" []).sup = SupPC.awaiting
        ∨ (readFailedState "EOF" []).sup = SupPC.panicked) :=
  readError_no_error_frame "EOF" [] (readFailedState "EOF" []) Relation.ReflTransGen.refl

/-- Claim C3, divergence witness: cancelling an idle subscription only parks
true on the buffered done channel and returns; in every state internally
reachable afterwards the transport connection is still open, the reader is
still blocked inside its receive and the relay still waits, so neither loop
halts and the connection is never forcibly closed. -/
theorem cancel_idle_leaves_connection_open (fs : List Frame) (s t : SysState)
    (hc : LStep (idleRunningState fs) Act.cancel s)
    (h : Relation.ReflTransGen TauStep s t) :
    t.connOpen = true ∧ t.reader = ReaderPC.blockedOnReceive
    ∧ t.relay = RelayPC.awaitingMsg ∧ t.frames = fs ∧ t.done = true := by
  simp only [idleRunningState] at hc
  cases hc
  have stuck : ∀ u,
      Relation.ReflTransGen TauStep
        (⟨.blockedOnReceive, .awaitingMsg, .cancelled, true, true, fs⟩ : SysState) u →
      u = (⟨.blockedOnReceive, .awaitingMsg, .cancelled, true, true, fs⟩ : SysState) := by
    intro u hu
    induction hu with
    | refl => rfl
    | tail _ hbc ih =>
      rw [ih] at hbc
      cases hbc
  rw [stuck t h]
  exact ⟨rfl, rfl, rfl, rfl, rfl⟩

/-- Witness for C3: the concrete cancellation step from the idle state with
no frames emitted, followed by the empty internal run. -/
theorem cancel_idle_leaves_connection_open_w :
    (⟨.blockedOnReceive, .awaitingMsg, .cancelled, true, true, []⟩ : SysState).connOpen = true
    ∧ (⟨.blockedOnReceive, .awaitingMsg, .cancelled, true, true, []⟩ : SysState).reader
        = ReaderPC.blockedOnReceive
    ∧ (⟨.blockedOnReceive, .awaitingMsg, .cancelled, true, true, []⟩ : SysState).relay
        = RelayPC.awaitingMsg
    ∧ (⟨.blockedOnReceive, .awaitingMsg, .cancelled, true, true, []⟩ : SysState).frames = []
    ∧ (⟨.blockedOnReceive, .awaitingMsg, .cancelled, true, true, []⟩ : SysState).done = true :=
  cancel_idle_leaves_connection_open [] _ _
    (LStep.ctxCancelled .blockedOnReceive .awaitingMsg true [])
    Relation.ReflTransGen.refl
